import Mathlib

/-!
Verification of `pattern_corr.py` (repository AgentOxygen/pattern_correlation).

Shallow embedding: numpy floating-point values are idealised as real numbers,
with a possible missing value (NaN) modelled by `Option ℝ` (`none` = NaN).
Elementwise arithmetic propagates `none` (NaN times anything is NaN);
`np.nansum` treats `none` entries as contributing zero, exactly as the
source's reduction semantics ("skip only at the final sum, not at
intermediate elementwise products").  2-D numpy arrays are lists of rows;
`shape` is the list of row lengths (for a rectangular (m,n) array this is
`replicate m n`), and two arrays compare shape-equal exactly when these
agree.  In-place mutation of caller-owned numpy buffers is modelled by
explicit state passing: the embedded functions return the final contents of
the buffers they may mutate.  Assertion failures and xarray KeyErrors are
modelled with `Except`.
-/

namespace PatternCorrelation

/-- A floating-point cell value: `none` models NaN. -/
abbrev Val := Option ℝ

/-- A 2-D array: a list of rows. -/
abbrev Grid := List (List Val)

/-- NaN-propagating product of two cell values (numpy elementwise `*`). -/
def omul : Val → Val → Val
  | some a, some b => some (a * b)
  | _, _ => none

/-- NaN-propagating square of a cell value (numpy elementwise `**2`). -/
def osq : Val → Val
  | some a => some (a ^ 2)
  | none => none

/-- Subtracting a (non-NaN) scalar from a cell value (numpy `arr - scalar`). -/
def osub : Val → ℝ → Val
  | some a, c => some (a - c)
  | none, _ => none

/-- Dividing a cell value by a (non-NaN) scalar (numpy `arr / scalar`). -/
noncomputable def odivc : Val → ℝ → Val
  | some a, c => some (a / c)
  | none, _ => none

/-- NaN-ignoring sum of a row: `none` entries contribute zero. -/
def nansumRow (row : List Val) : ℝ := (row.map (fun x => x.getD 0)).sum

/-- `np.nansum` over a whole 2-D array: NaN entries contribute zero. -/
def nansum (g : Grid) : ℝ := (g.map nansumRow).sum

/-- Elementwise product of two grids (numpy `a * b` on equal shapes). -/
def gmul (a b : Grid) : Grid := List.zipWith (List.zipWith omul) a b

/-- Elementwise square of a grid (numpy `a ** 2`). -/
def gsq (a : Grid) : Grid := a.map (fun row => row.map osq)

/-- Subtracting a scalar from every cell of a grid (numpy `a -= c`). -/
def gsubc (a : Grid) (c : ℝ) : Grid := a.map (fun row => row.map (fun x => osub x c))

/-- Dividing every cell of a grid by a scalar (numpy `a / c`). -/
noncomputable def gdivc (a : Grid) (c : ℝ) : Grid :=
  a.map (fun row => row.map (fun x => odivc x c))

/-- numpy `.shape` of a 2-D array, as the list of row lengths
    (a rectangular (m, n) array has shape `replicate m n`). -/
def shape (g : Grid) : List ℕ := g.map List.length

/-- numpy `.size`: the total number of cells. -/
def sizeG (g : Grid) : ℕ := (g.map List.length).sum

/-- `np.ones(grid_a.shape) / grid_a.size`: the uniform weight field
    synthesized when `weights` is omitted (source line 43). -/
noncomputable def uniformWeights (g : Grid) : Grid :=
  g.map (fun row => row.map (fun _ => some ((1 : ℝ) / (sizeG g : ℝ))))

/-- The failure condition of `pattern_corr`: an `AssertionError` from one of
    the two shape asserts (source lines 45-46). -/
inductive PCErr
  | shapeMismatch
  deriving DecidableEq

/-- What a call to `pattern_corr` leaves behind: the returned scalar, and
    the final contents of the caller's `grid_a` and `grid_b` buffers (the
    centered branch mutates them in place, source lines 52-53). -/
structure PCResult where
  value : ℝ
  grid_a : Grid
  grid_b : Grid

/-- Embedding of `pattern_corr` (source lines 18-62), in source order:
    synthesize default weights if omitted, assert the two shape checks,
    optionally subtract each grid's weighted mean in place, then return
    `nansum(a*b*w) / sqrt(nansum(a²w) * nansum(b²w))`. -/
noncomputable def pattern_corr (grid_a grid_b : Grid) (weights : Option Grid)
    (centered : Bool) : Except PCErr PCResult :=
  let w := weights.getD (uniformWeights grid_a)
  if shape grid_a = shape grid_b then
    if shape w = shape grid_a then
      let ga := if centered then gsubc grid_a (nansum (gmul grid_a w)) else grid_a
      let gb := if centered then gsubc grid_b (nansum (gmul grid_b w)) else grid_b
      let numerator := nansum (gmul (gmul ga gb) w)
      let grid_squared_a := gmul (gsq ga) w
      let grid_squared_b := gmul (gsq gb) w
      let denominator := Real.sqrt (nansum grid_squared_a * nansum grid_squared_b)
      .ok ⟨numerator / denominator, ga, gb⟩
    else .error .shapeMismatch
  else .error .shapeMismatch

/-- Modelled from the spec (§4.2 Algorithm steps 1-5), for the refinement
    claim: weights default to the uniform field, the grids are first
    replaced by themselves minus their weighted means when `centered`,
    and the result is `numerator / sqrt(denominator product)`. -/
noncomputable def specPatternCorr (grid_a grid_b : Grid) (weights : Option Grid)
    (centered : Bool) : ℝ :=
  let w := weights.getD (uniformWeights grid_a)
  let a := if centered then gsubc grid_a (nansum (gmul grid_a w)) else grid_a
  let b := if centered then gsubc grid_b (nansum (gmul grid_b w)) else grid_b
  nansum (gmul (gmul a b) w) /
    Real.sqrt (nansum (gmul (gsq a) w) * nansum (gmul (gsq b) w))

/-- The failure condition of `spatial_weights`: the `assert longitudes_size >= 0`
    (source line 76). -/
inductive SWErr
  | invalidArgument
  deriving DecidableEq

/-- `np.cos(np.deg2rad(x))` on a cell value: NaN propagates. -/
noncomputable def ocos : Val → Val
  | some a => some (Real.cos (a * Real.pi / 180))
  | none => none

/-- `np.tile(v, (n, 1)).T` for a 1-D `v` of length m: the (m, n) array whose
    row i is the i-th value of `v` replicated across the n columns. -/
def tileT (v : List Val) (n : ℕ) : Grid := v.map (fun x => List.replicate n x)

/-- Embedding of `spatial_weights` (source lines 65-82): assert the
    longitude count is non-negative, form the cosine-latitude weights,
    tile and transpose them, and normalize by the NaN-ignoring total. -/
noncomputable def spatial_weights (latitudes : List Val) (longitudes_size : ℤ) :
    Except SWErr Grid :=
  if 0 ≤ longitudes_size then
    let lat_weights := latitudes.map ocos
    let lat_lon_weights := tileT lat_weights longitudes_size.toNat
    .ok (gdivc lat_lon_weights (nansum lat_lon_weights))
  else .error .invalidArgument

/-! ### Basic lemmas about the grid operations -/

theorem omul_comm (x y : Val) : omul x y = omul y x := by
  cases x <;> cases y <;> simp [omul, mul_comm]

theorem gmul_comm (a b : Grid) : gmul a b = gmul b a := by
  unfold gmul
  refine List.zipWith_comm_of_comm _ (fun r s => ?_) a b
  exact List.zipWith_comm_of_comm _ omul_comm r s

theorem sizeG_eq_shape_sum (g : Grid) : sizeG g = (shape g).sum := rfl

theorem shape_uniformWeights (g : Grid) : shape (uniformWeights g) = shape g := by
  simp [shape, uniformWeights, List.map_map, Function.comp]

theorem uniformWeights_as_shape (g : Grid) (v : Val) :
    g.map (fun row => row.map (fun _ => v)) = (shape g).map (fun n => List.replicate n v) := by
  simp only [shape, List.map_map]
  refine List.map_congr_left (fun row _ => ?_)
  simp [List.map_const']

theorem uniformWeights_shape_eq {a b : Grid} (h : shape a = shape b) :
    uniformWeights a = uniformWeights b := by
  have hs : sizeG a = sizeG b := by
    rw [sizeG_eq_shape_sum, sizeG_eq_shape_sum, h]
  unfold uniformWeights
  rw [hs, uniformWeights_as_shape, uniformWeights_as_shape, h]

/-- When both shape asserts pass, `pattern_corr` returns the spec-side scalar
    together with the centered (or untouched) contents of the two caller
    buffers. -/
theorem pattern_corr_ok_parts (a b : Grid) (w? : Option Grid) (c : Bool)
    (h1 : shape a = shape b) (h2 : shape (w?.getD (uniformWeights a)) = shape a) :
    pattern_corr a b w? c =
      .ok ⟨specPatternCorr a b w? c,
           (if c then gsubc a (nansum (gmul a (w?.getD (uniformWeights a)))) else a),
           (if c then gsubc b (nansum (gmul b (w?.getD (uniformWeights a)))) else b)⟩ := by
  simp only [pattern_corr, specPatternCorr]
  rw [if_pos h1, if_pos h2]

theorem pattern_corr_err_of_shape {a b : Grid} (w? : Option Grid) (c : Bool)
    (h1 : ¬ shape a = shape b) :
    pattern_corr a b w? c = .error .shapeMismatch := by
  simp only [pattern_corr]
  rw [if_neg h1]

theorem specPatternCorr_symm (a b w : Grid) (c : Bool) :
    specPatternCorr a b (some w) c = specPatternCorr b a (some w) c := by
  unfold specPatternCorr
  simp only [Option.getD_some]
  cases c with
  | false =>
    simp only [Bool.false_eq_true, if_false]
    rw [gmul_comm a b,
        mul_comm (nansum (gmul (gsq a) w)) (nansum (gmul (gsq b) w))]
  | true =>
    simp only [if_true]
    rw [gmul_comm (gsubc a (nansum (gmul a w))) (gsubc b (nansum (gmul b w))),
        mul_comm (nansum (gmul (gsq (gsubc a (nansum (gmul a w)))) w))
          (nansum (gmul (gsq (gsubc b (nansum (gmul b w)))) w))]

theorem specPatternCorr_none (a b : Grid) (c : Bool) :
    specPatternCorr a b none c = specPatternCorr a b (some (uniformWeights a)) c := by
  simp [specPatternCorr]

/-! ### Claims about `pattern_corr` -/

/-- C1: for equal-shaped grids and weights (supplied, or the uniform
    `1/size` field when omitted), `pattern_corr` returns
    `nansum(a*b*w) / sqrt(nansum(a²w) * nansum(b²w))`, where under
    `centered` both grids are first replaced by themselves minus their
    weighted means `nansum(grid*w)`. -/
theorem pattern_corr_returns_spec_formula (a b : Grid) (w? : Option Grid) (c : Bool)
    (h1 : shape a = shape b) (h2 : shape (w?.getD (uniformWeights a)) = shape a) :
    (pattern_corr a b w? c).map PCResult.value = .ok (specPatternCorr a b w? c) := by
  rw [pattern_corr_ok_parts a b w? c h1 h2]
  rfl

theorem pattern_corr_returns_spec_formula_witness :
    shape [[some (1:ℝ), some 2]] = shape [[some (3:ℝ), some 4]] ∧
    shape ((some [[some (1:ℝ), some 1]]).getD (uniformWeights [[some (1:ℝ), some 2]]))
      = shape [[some (1:ℝ), some 2]] ∧
    (pattern_corr [[some (1:ℝ), some 2]] [[some (3:ℝ), some 4]]
        (some [[some (1:ℝ), some 1]]) true).map PCResult.value
      = .ok (specPatternCorr [[some (1:ℝ), some 2]] [[some (3:ℝ), some 4]]
          (some [[some (1:ℝ), some 1]]) true) :=
  ⟨rfl, rfl, pattern_corr_returns_spec_formula _ _ _ _ rfl rfl⟩

/-- C3: a centered call leaves each caller buffer equal to the original grid
    minus its weighted mean `nansum(grid*weights)` elementwise; an uncentered
    call leaves both buffers unchanged. -/
theorem pattern_corr_centering_mutation (a b : Grid) (w? : Option Grid)
    (h1 : shape a = shape b) (h2 : shape (w?.getD (uniformWeights a)) = shape a) :
    (pattern_corr a b w? true).map (fun r => (r.grid_a, r.grid_b)) =
      .ok (gsubc a (nansum (gmul a (w?.getD (uniformWeights a)))),
           gsubc b (nansum (gmul b (w?.getD (uniformWeights a))))) ∧
    (pattern_corr a b w? false).map (fun r => (r.grid_a, r.grid_b)) = .ok (a, b) := by
  refine ⟨?_, ?_⟩
  · rw [pattern_corr_ok_parts a b w? true h1 h2]
    rfl
  · rw [pattern_corr_ok_parts a b w? false h1 h2]
    rfl

theorem pattern_corr_centering_mutation_witness :
    shape [[some (1:ℝ), some 2]] = shape [[some (3:ℝ), some 5]] ∧
    shape ((some [[some (1:ℝ), some 1]]).getD (uniformWeights [[some (1:ℝ), some 2]]))
      = shape [[some (1:ℝ), some 2]] ∧
    ((pattern_corr [[some (1:ℝ), some 2]] [[some (3:ℝ), some 5]]
        (some [[some (1:ℝ), some 1]]) true).map (fun r => (r.grid_a, r.grid_b)) =
      .ok (gsubc [[some (1:ℝ), some 2]]
             (nansum (gmul [[some (1:ℝ), some 2]]
               ((some [[some (1:ℝ), some 1]]).getD (uniformWeights [[some (1:ℝ), some 2]])))),
           gsubc [[some (3:ℝ), some 5]]
             (nansum (gmul [[some (3:ℝ), some 5]]
               ((some [[some (1:ℝ), some 1]]).getD (uniformWeights [[some (1:ℝ), some 2]]))))) ∧
    (pattern_corr [[some (1:ℝ), some 2]] [[some (3:ℝ), some 5]]
        (some [[some (1:ℝ), some 1]]) false).map (fun r => (r.grid_a, r.grid_b)) =
      .ok ([[some (1:ℝ), some 2]], [[some (3:ℝ), some 5]])) :=
  ⟨rfl, rfl, pattern_corr_centering_mutation _ _ _ rfl rfl⟩

/-- C4: `pattern_corr` fails with the ShapeMismatch condition exactly when the
    two grids differ in shape, or weights are supplied explicitly and differ
    in shape from `grid_a`; the shape asserts run before the centered branch
    can touch either buffer, and nothing is broadcast or coerced. -/
theorem pattern_corr_shape_mismatch_iff (a b : Grid) (w? : Option Grid) (c : Bool) :
    pattern_corr a b w? c = .error .shapeMismatch ↔
      shape a ≠ shape b ∨ ∃ w, w? = some w ∧ shape w ≠ shape a := by
  cases w? with
  | none =>
    by_cases h1 : shape a = shape b
    · rw [pattern_corr_ok_parts a b none c h1 (by simpa using shape_uniformWeights a)]
      simp [h1]
    · rw [pattern_corr_err_of_shape none c h1]
      simp [h1]
  | some w =>
    by_cases h1 : shape a = shape b
    · by_cases h2 : shape w = shape a
      · rw [pattern_corr_ok_parts a b (some w) c h1 (by simpa using h2)]
        simp [h1, h2]
      · have : pattern_corr a b (some w) c = .error .shapeMismatch := by
          simp only [pattern_corr, Option.getD_some]
          rw [if_pos h1, if_neg h2]
        rw [this]
        exact iff_of_true rfl (.inr ⟨w, rfl, h2⟩)
    · rw [pattern_corr_err_of_shape (some w) c h1]
      simp [h1]

/-- C8: `pattern_corr` is symmetric in its two grid arguments, for supplied
    or omitted weights and for both values of `centered` (the scalar result
    agrees; a shape failure occurs on one order exactly when it occurs on
    the other). -/
theorem pattern_corr_symmetric (a b : Grid) (w? : Option Grid) (c : Bool) :
    (pattern_corr a b w? c).map PCResult.value =
      (pattern_corr b a w? c).map PCResult.value := by
  by_cases h1 : shape a = shape b
  · have h1' : shape b = shape a := h1.symm
    cases w? with
    | some w =>
      by_cases h2 : shape w = shape a
      · rw [pattern_corr_ok_parts a b (some w) c h1 (by simpa using h2),
            pattern_corr_ok_parts b a (some w) c h1' (by simpa using h2.trans h1)]
        exact congrArg (fun v : ℝ => (Except.ok v : Except PCErr ℝ))
          (specPatternCorr_symm a b w c)
      · have h2' : ¬ shape w = shape b := fun h => h2 (h.trans h1')
        have ea : pattern_corr a b (some w) c = .error .shapeMismatch := by
          simp only [pattern_corr, Option.getD_some]
          rw [if_pos h1, if_neg h2]
        have eb : pattern_corr b a (some w) c = .error .shapeMismatch := by
          simp only [pattern_corr, Option.getD_some]
          rw [if_pos h1', if_neg h2']
        rw [ea, eb]
    | none =>
      have hu : uniformWeights a = uniformWeights b := uniformWeights_shape_eq h1
      rw [pattern_corr_ok_parts a b none c h1 (by simpa using shape_uniformWeights a),
          pattern_corr_ok_parts b a none c h1' (by simpa using shape_uniformWeights b)]
      simp only [Except.map]
      rw [specPatternCorr_none a b c, specPatternCorr_none b a c, hu,
          specPatternCorr_symm a b (uniformWeights b) c]
  · have h1' : ¬ shape b = shape a := fun h => h1 h.symm
    rw [pattern_corr_err_of_shape w? c h1, pattern_corr_err_of_shape w? c h1']

/-- C9: `spatial_weights` fails with the InvalidArgument condition exactly when
    the longitude count is negative; every non-negative count returns
    normally, and count 0 yields the empty weight field (one empty row per
    latitude). -/
theorem spatial_weights_longitude_guard (lats : List Val) (n : ℤ) :
    ((spatial_weights lats n = .error .invalidArgument) ↔ n < 0) ∧
    spatial_weights lats 0 = .ok (lats.map (fun _ => [])) := by
  constructor
  · by_cases hn : 0 ≤ n
    · simp only [spatial_weights, if_pos hn]
      constructor
      · intro h
        exact absurd h (by simp)
      · intro h
        omega
    · simp only [spatial_weights, if_neg hn]
      constructor
      · intro _
        omega
      · intro _
        trivial
  · simp only [spatial_weights, if_pos le_rfl, Int.toNat_zero, tileT,
      List.replicate_zero, gdivc, List.map_map]
    exact congrArg Except.ok (List.map_congr_left fun x _ => rfl)

/-! ### Claims about `spatial_weights` -/

theorem nansumRow_map_odivc (row : List Val) (t : ℝ) :
    nansumRow (row.map (fun x => odivc x t)) = nansumRow row / t := by
  induction row with
  | nil => simp [nansumRow]
  | cons x xs ih =>
    cases x with
    | none => simpa [nansumRow, odivc, add_div] using ih
    | some a => simpa [nansumRow, odivc, add_div] using ih

theorem nansum_gdivc (g : Grid) (t : ℝ) : nansum (gdivc g t) = nansum g / t := by
  induction g with
  | nil => simp [nansum, gdivc]
  | cons row rest ih =>
    simp only [gdivc, List.map_cons, nansum, List.sum_cons, nansumRow_map_odivc, add_div]
    simp only [gdivc, nansum] at ih
    rw [ih]

/-- C5 (amended): whenever the NaN-ignoring total of the tiled cosine field is
    nonzero, the elements of the weight field returned by `spatial_weights`
    sum to 1 under the NaN-ignoring summation. -/
theorem spatial_weights_sum_one (lats : List Val) (n : ℤ) (hn : 0 ≤ n)
    (hT : nansum (tileT (lats.map ocos) n.toNat) ≠ 0) :
    (spatial_weights lats n).map nansum = .ok 1 := by
  simp only [spatial_weights, if_pos hn]
  exact congrArg (fun v : ℝ => (Except.ok v : Except SWErr ℝ))
    (by rw [nansum_gdivc]; exact div_self hT)

theorem spatial_weights_sum_one_witness :
    ((0:ℤ) ≤ 1 ∧ nansum (tileT (List.map ocos [some 0]) (Int.toNat 1)) ≠ 0) ∧
    (spatial_weights [some 0] 1).map nansum = .ok 1 := by
  have hT : nansum (tileT (List.map ocos [(some 0 : Val)]) (Int.toNat 1)) ≠ 0 := by
    norm_num [tileT, ocos, nansum, nansumRow, Real.cos_zero]
  exact ⟨⟨by norm_num, hT⟩, spatial_weights_sum_one [some 0] 1 (by norm_num) hT⟩

/-- C5 (counterexample): at latitudes `[0, 180]` with one longitude column the
    tiled cosine field sums to `cos 0 + cos π = 0`, so the normalized weights
    do not sum to 1 (the code divides by a zero total here as well). -/
theorem spatial_weights_sum_counterexample :
    (spatial_weights [some 0, some (180:ℝ)] 1).map nansum ≠ .ok 1 := by
  have e1 : (0:ℝ) * Real.pi / 180 = 0 := by norm_num
  have e2 : (180:ℝ) * Real.pi / 180 = Real.pi := by
    rw [mul_comm]
    exact mul_div_cancel_right₀ _ (by norm_num)
  have hT : nansum (tileT (List.map ocos [some 0, some (180:ℝ)]) (Int.toNat 1)) = 0 := by
    norm_num [tileT, ocos, nansum, nansumRow, e1, e2, Real.cos_pi]
  have hval : (spatial_weights [some 0, some (180:ℝ)] 1).map nansum = .ok 0 := by
    simp only [spatial_weights, if_pos (by norm_num : (0:ℤ) ≤ 1)]
    exact congrArg (fun v : ℝ => (Except.ok v : Except SWErr ℝ))
      (by rw [nansum_gdivc, hT, div_zero])
  rw [hval]
  intro h
  have h0 : (0:ℝ) = 1 := Except.ok.inj h
  norm_num at h0

/-- C6: for a non-negative longitude count, `spatial_weights` returns an array
    of shape (number of latitudes, longitude count) whose (i, j) entry is
    `cos(radians(lat_i))` divided by the NaN-ignoring sum of the full tiled
    cosine field; rows are constant across columns, and equal latitudes give
    equal rows. -/
theorem spatial_weights_entries (lats : List Val) (n : ℤ) (W : Grid)
    (hn : 0 ≤ n) (hW : spatial_weights lats n = .ok W) :
    shape W = List.replicate lats.length n.toNat ∧
    (∀ i j : ℕ, j < n.toNat →
      (W[i]?.bind fun row => row[j]?) =
        (lats[i]?.map fun l =>
          odivc (ocos l) (nansum (tileT (lats.map ocos) n.toNat)))) ∧
    (∀ i j k : ℕ, j < n.toNat → k < n.toNat →
      (W[i]?.bind fun row => row[j]?) = (W[i]?.bind fun row => row[k]?)) ∧
    (∀ i k : ℕ, lats[i]? = lats[k]? → W[i]? = W[k]?) := by
  have hWeq : W = gdivc (tileT (lats.map ocos) n.toNat)
      (nansum (tileT (lats.map ocos) n.toNat)) := by
    have h := hW
    simp only [spatial_weights, if_pos hn] at h
    exact (Except.ok.inj h).symm
  subst hWeq
  have hrow : ∀ i : ℕ,
      (gdivc (tileT (lats.map ocos) n.toNat)
        (nansum (tileT (lats.map ocos) n.toNat)))[i]? =
      lats[i]?.map (fun l => List.replicate n.toNat
        (odivc (ocos l) (nansum (tileT (lats.map ocos) n.toNat)))) := by
    intro i
    cases h : lats[i]? with
    | none => simp [gdivc, tileT, List.getElem?_map, h]
    | some l => simp [gdivc, tileT, List.getElem?_map, h, List.map_replicate]
  have hent : ∀ i j : ℕ, j < n.toNat →
      ((gdivc (tileT (lats.map ocos) n.toNat)
        (nansum (tileT (lats.map ocos) n.toNat)))[i]?.bind fun row => row[j]?) =
      (lats[i]?.map fun l =>
        odivc (ocos l) (nansum (tileT (lats.map ocos) n.toNat))) := by
    intro i j hj
    rw [hrow i]
    cases h : lats[i]? with
    | none => simp
    | some l => simp [List.getElem?_replicate, hj]
  refine ⟨?_, hent, ?_, ?_⟩
  · simp only [shape, gdivc, tileT, List.map_map]
    refine (List.map_congr_left fun x _ => ?_).trans (List.map_const' lats n.toNat)
    simp
  · intro i j k hj hk
    rw [hent i j hj, hent i k hk]
  · intro i k h
    rw [hrow i, hrow k, h]

theorem spatial_weights_entries_witness :
    ((0:ℤ) ≤ 1 ∧
      spatial_weights [some 0] 1 =
        .ok [[odivc (ocos (some 0)) (nansum [[ocos (some 0)]])]]) ∧
    (([[odivc (ocos (some 0)) (nansum [[ocos (some 0)]])]] : Grid)[0]?.bind
        fun row => row[0]?) =
      (([some 0] : List Val)[0]?.map fun l =>
        odivc (ocos l) (nansum (tileT (List.map ocos [some 0]) (Int.toNat 1)))) :=
  ⟨⟨by norm_num, rfl⟩,
   (spatial_weights_entries [some 0] 1
      [[odivc (ocos (some 0)) (nansum [[ocos (some 0)]])]]
      (by norm_num) rfl).2.1 0 0 (by norm_num)⟩

/-! ### The xarray wrapper model

`xarray.DataArray` inputs are modelled time-major: one spatial `Grid` per
position along the time dimension, whose name is recorded in `timeDim`;
`coords` maps dimension names to coordinate values and `attrs` is the
attribute dictionary.  `DataArray.sel(time=v)` returns a view of the slice
whose time coordinate equals `v`; the in-place subtraction inside a centered
`pattern_corr` call writes through that view into the caller's storage, which
the embedding models by writing the returned buffer back at the selected
index. -/

/-- Failure conditions of the xarray wrapper: the shape assert, a coordinate
    KeyError, or the `spatial_weights` assert. -/
inductive XErr
  | shapeMismatch
  | keyError
  | invalidArgument
  deriving DecidableEq

/-- Association-list lookup by key, modelling python dict access and xarray
    coordinate access by name. -/
def alookup {α : Type} (k : String) : List (String × α) → Option α
  | [] => none
  | (k₀, v) :: rest => if k₀ = k then some v else alookup k rest

/-- A rank-3 labeled array (`xarray.DataArray` of shape time × lat × lon). -/
structure DataArray where
  timeDim : String
  coords : List (String × List ℝ)
  data : List Grid
  attrs : List (String × String)

/-- The rank-1 labeled output (`corr_ds` in the source). -/
structure Series where
  coords : List (String × List ℝ)
  values : List ℝ
  attrs : List (String × String)

/-- `.shape` of a rank-3 array, as the list of per-slice 2-D shapes (two
    arrays are numpy-shape-equal exactly when these lists agree). -/
def dshape (ds : DataArray) : List (List ℕ) := ds.data.map shape

/-- `ds[label]` coordinate access: KeyError when the label is absent. -/
def coordOrErr (coords : List (String × List ℝ)) (k : String) :
    Except XErr (List ℝ) :=
  match alookup k coords with
  | some v => .ok v
  | none => .error .keyError

/-- First index at which a coordinate list holds the value `v`. -/
noncomputable def indexOfVal (v : ℝ) : List ℝ → Option ℕ
  | [] => none
  | x :: xs => if x = v then some 0 else (indexOfVal v xs).map (· + 1)

/-- Models `ds.sel(time=v)` (source line 125): the dimension keyword `time`
    is hardcoded in the source, so selection requires the array's time
    dimension to be literally named "time"; the slice index is found by
    coordinate value (first match), not by position. -/
noncomputable def selTimeIndex (ds : DataArray) (v : ℝ) : Except XErr ℕ :=
  if ds.timeDim = "time" then
    match alookup "time" ds.coords with
    | none => .error .keyError
    | some tv =>
      match indexOfVal v tv with
      | none => .error .keyError
      | some i => .ok i
  else .error .keyError

/-- python dict assignment `attrs[k] = v`, up to key order (which the spec
    declares irrelevant): the pair (k, v) becomes present and every other key
    keeps its value. -/
def dictSet (attrs : List (String × String)) (k v : String) :
    List (String × String) :=
  (k, v) :: attrs.filter (fun kv => decide (kv.1 ≠ k))

/-- One iteration of the loop at source lines 124-125: read the time value at
    output index `t`, select the spatial slices of both inputs by that
    coordinate value, run `pattern_corr` on them with the shared weights,
    store the scalar at output index `t`, and write the (possibly
    centered-in-place) slice buffers back through the selected views. -/
noncomputable def corrStep (weights : Grid) (centered : Bool) (ctvals : List ℝ)
    (st : List ℝ × DataArray × DataArray) (t : ℕ) :
    Except XErr (List ℝ × DataArray × DataArray) :=
  match st with
  | (vals, da, db) =>
    match ctvals[t]? with
    | none => .error .keyError
    | some v =>
      match selTimeIndex da v with
      | .error e => .error e
      | .ok ia =>
        match da.data[ia]? with
        | none => .error .keyError
        | some sa =>
          match selTimeIndex db v with
          | .error e => .error e
          | .ok ib =>
            match db.data[ib]? with
            | none => .error .keyError
            | some sb =>
              match pattern_corr sa sb (some weights) centered with
              | .error _ => .error .shapeMismatch
              | .ok r =>
                .ok (vals.set t r.value,
                     { da with data := da.data.set ia r.grid_a },
                     { db with data := db.data.set ib r.grid_b })

/-- The `for t in range(corr_ds[time_dim].size)` loop (source line 124),
    threading the output values and both mutable input arrays. -/
noncomputable def corrLoop (weights : Grid) (centered : Bool) (ctvals : List ℝ) :
    List ℕ → List ℝ × DataArray × DataArray →
      Except XErr (List ℝ × DataArray × DataArray)
  | [], st => .ok st
  | t :: ts, st =>
    match corrStep weights centered ctvals st t with
    | .error e => .error e
    | .ok st' => corrLoop weights centered ctvals ts st'

/-- Embedding of `xarray_pattern_corr` (source lines 85-127), in source
    order: the shape assert, the shared weight field from `ds_a`'s latitude
    coordinate and longitude size, the combined equal-on-both attributes, the
    zero-initialized output series whose coordinate is named literally
    "time" (source line 120), the two derived attributes, and the per-time
    loop, which looks `time_dim` up on that output series.  Returns the
    series plus the final contents of the two caller arrays. -/
noncomputable def xarray_pattern_corr (ds_a ds_b : DataArray) (centered : Bool)
    (lat_dim lon_dim time_dim : String) :
    Except XErr (Series × DataArray × DataArray) :=
  if dshape ds_a = dshape ds_b then
    match coordOrErr ds_a.coords lat_dim with
    | .error e => .error e
    | .ok lats =>
      match coordOrErr ds_a.coords lon_dim with
      | .error e => .error e
      | .ok lons =>
        match spatial_weights (lats.map some) (lons.length : ℤ) with
        | .error _ => .error .invalidArgument
        | .ok weights =>
          match coordOrErr ds_a.coords time_dim with
          | .error e => .error e
          | .ok tvals =>
            match coordOrErr [("time", tvals)] time_dim with
            | .error e => .error e
            | .ok ctvals =>
              match corrLoop weights centered ctvals (List.range ctvals.length)
                  (List.replicate tvals.length 0, ds_a, ds_b) with
              | .error e => .error e
              | .ok (vals, da, db) =>
                .ok (⟨[("time", tvals)], vals,
                  dictSet (dictSet
                      (ds_a.attrs.filter
                        (fun kv => decide (alookup kv.1 ds_b.attrs = some kv.2)))
                      "description"
                      "transient pattern correlation with latitudinal weights applied")
                    "units" "[-1, 1]"⟩, da, db)
  else .error .shapeMismatch

/-! ### Claim C2: the time label is not honoured -/

/-- C2 (code bug): the source accepts a `time_dim` label but hardcodes
    `"time"` in the output coordinates (line 120) and in `.sel(time=...)`
    (line 125).  For inputs whose time dimension is named `"T"`, a call with
    `time_dim = "T"` raises KeyError at `corr_ds[time_dim]` instead of
    selecting slices keyed by the given label: the wrapper never reaches the
    per-slice computation. -/
theorem xarray_pattern_corr_time_label_keyerror :
    xarray_pattern_corr
      ⟨"T", [("T", []), ("lat", [0]), ("lon", [])], [], []⟩
      ⟨"T", [("T", []), ("lat", [0]), ("lon", [])], [], []⟩
      true "lat" "lon" "T" = .error .keyError := rfl

/-! ### Claim C7: the output attribute map -/

theorem alookup_not_mem {α : Type} (attrs : List (String × α)) (k : String)
    (h : k ∉ attrs.map Prod.fst) : alookup k attrs = none := by
  induction attrs with
  | nil => rfl
  | cons kv rest ih =>
    obtain ⟨k₀, v₀⟩ := kv
    simp only [List.map_cons, List.mem_cons, not_or] at h
    simp only [alookup, if_neg (fun hh : k₀ = k => h.1 hh.symm)]
    exact ih h.2

theorem alookup_filter_ne {α : Type} (attrs : List (String × α)) (k k' : String)
    (h : k' ≠ k) :
    alookup k' (attrs.filter fun kv => decide (kv.1 ≠ k)) = alookup k' attrs := by
  induction attrs with
  | nil => rfl
  | cons kv rest ih =>
    obtain ⟨k₀, v₀⟩ := kv
    by_cases hk : k₀ = k
    · subst hk
      rw [List.filter_cons, if_neg (by simp)]
      rw [ih]
      simp only [alookup, if_neg (fun hh : k₀ = k' => h hh.symm)]
    · rw [List.filter_cons, if_pos (by simp [hk])]
      by_cases hkk : k₀ = k'
      · simp [alookup, hkk]
      · simp only [alookup, if_neg hkk]
        exact ih

theorem alookup_filter_commonEq (aAttrs bAttrs : List (String × String))
    (hA : (aAttrs.map Prod.fst).Nodup) (k : String) :
    alookup k (aAttrs.filter fun kv => decide (alookup kv.1 bAttrs = some kv.2)) =
      (match alookup k aAttrs with
       | some v => if alookup k bAttrs = some v then some v else none
       | none => none) := by
  induction aAttrs with
  | nil => rfl
  | cons kv rest ih =>
    obtain ⟨k₀, v₀⟩ := kv
    simp only [List.map_cons, List.nodup_cons] at hA
    obtain ⟨hk₀, hrest⟩ := hA
    by_cases hp : alookup k₀ bAttrs = some v₀
    · rw [List.filter_cons, if_pos (by simp [hp])]
      by_cases hkk : k₀ = k
      · subst hkk
        simp [alookup, hp]
      · simp only [alookup, if_neg hkk]
        exact ih hrest
    · rw [List.filter_cons, if_neg (by simp [hp])]
      by_cases hkk : k₀ = k
      · subst hkk
        have hnone : alookup k₀
            (rest.filter fun kv => decide (alookup kv.1 bAttrs = some kv.2)) = none :=
          alookup_not_mem _ _
            (fun hm => hk₀ (List.map_subset _ (List.filter_subset' _) hm))
        simp [alookup, hnone, hp]
      · simp only [alookup, if_neg hkk]
        exact ih hrest

theorem alookup_dictSet (attrs : List (String × String)) (k v k' : String) :
    alookup k' (dictSet attrs k v) = if k' = k then some v else alookup k' attrs := by
  by_cases h : k' = k
  · subst h
    simp [dictSet, alookup]
  · rw [if_neg h]
    have h2 : ¬ k = k' := fun hh => h hh.symm
    simp only [dictSet, alookup, if_neg h2]
    exact alookup_filter_ne attrs k k' h

/-- C7: the attribute map of a returned series holds exactly the key/value
    pairs carried with equal values by both inputs, except that
    "description" and "units" are unconditionally overwritten with the
    derived values (the keys of `ds_a.attrs` are assumed distinct, as python
    dict keys are). -/
theorem xarray_pattern_corr_attrs (ds_a ds_b : DataArray) (centered : Bool)
    (lat_dim lon_dim time_dim : String) (s : Series) (da db : DataArray)
    (hA : (ds_a.attrs.map Prod.fst).Nodup)
    (hOk : xarray_pattern_corr ds_a ds_b centered lat_dim lon_dim time_dim =
      .ok (s, da, db)) (k : String) :
    alookup k s.attrs =
      if k = "units" then some "[-1, 1]"
      else if k = "description" then
        some "transient pattern correlation with latitudinal weights applied"
      else
        (match alookup k ds_a.attrs with
         | some v => if alookup k ds_b.attrs = some v then some v else none
         | none => none) := by
  have hattrs : s.attrs =
      dictSet (dictSet
          (ds_a.attrs.filter (fun kv => decide (alookup kv.1 ds_b.attrs = some kv.2)))
          "description" "transient pattern correlation with latitudinal weights applied")
        "units" "[-1, 1]" := by
    unfold xarray_pattern_corr at hOk
    repeat' (first | exact Except.noConfusion hOk | split at hOk)
    exact (congrArg (fun p : Series × DataArray × DataArray => p.1.attrs)
      (Except.ok.inj hOk)).symm
  rw [hattrs, alookup_dictSet, alookup_dictSet,
    alookup_filter_commonEq ds_a.attrs ds_b.attrs hA]

theorem xarray_pattern_corr_attrs_witness :
    ((([("model", "X"), ("units", "K")] : List (String × String)).map
        Prod.fst).Nodup ∧
      xarray_pattern_corr
        ⟨"time", [("time", []), ("lat", [0]), ("lon", [])], [],
          [("model", "X"), ("units", "K")]⟩
        ⟨"time", [("time", []), ("lat", [0]), ("lon", [])], [],
          [("model", "X"), ("units", "C")]⟩
        true "lat" "lon" "time" =
        .ok (⟨[("time", [])], [],
              [("units", "[-1, 1]"),
               ("description",
                 "transient pattern correlation with latitudinal weights applied"),
               ("model", "X")]⟩,
             ⟨"time", [("time", []), ("lat", [0]), ("lon", [])], [],
               [("model", "X"), ("units", "K")]⟩,
             ⟨"time", [("time", []), ("lat", [0]), ("lon", [])], [],
               [("model", "X"), ("units", "C")]⟩)) ∧
    alookup "units"
        ([("units", "[-1, 1]"),
          ("description",
            "transient pattern correlation with latitudinal weights applied"),
          ("model", "X")] : List (String × String)) = some "[-1, 1]" := by
  refine ⟨⟨by decide, rfl⟩, ?_⟩
  have h := xarray_pattern_corr_attrs
    ⟨"time", [("time", []), ("lat", [0]), ("lon", [])], [],
      [("model", "X"), ("units", "K")]⟩
    ⟨"time", [("time", []), ("lat", [0]), ("lon", [])], [],
      [("model", "X"), ("units", "C")]⟩
    true "lat" "lon" "time"
    ⟨[("time", [])], [],
      [("units", "[-1, 1]"),
       ("description",
         "transient pattern correlation with latitudinal weights applied"),
       ("model", "X")]⟩
    ⟨"time", [("time", []), ("lat", [0]), ("lon", [])], [],
      [("model", "X"), ("units", "K")]⟩
    ⟨"time", [("time", []), ("lat", [0]), ("lon", [])], [],
      [("model", "X"), ("units", "C")]⟩
    (by decide) rfl "units"
  simpa using h

/-! ### Claim C10: centered runs mutate the caller's series through the
    selected views -/

theorem indexOfVal_of_nodup (tvals : List ℝ) (hnd : tvals.Nodup) :
    ∀ (k : ℕ) (hk : k < tvals.length), indexOfVal tvals[k] tvals = some k := by
  induction tvals with
  | nil =>
    intro k hk
    simp at hk
  | cons x xs ih =>
    intro k hk
    simp only [List.nodup_cons] at hnd
    obtain ⟨hx, hxs⟩ := hnd
    cases k with
    | zero => simp [indexOfVal]
    | succ k =>
      have hk' : k < xs.length := by simpa using hk
      have hne : ¬ x = (x :: xs)[k + 1] := by
        rw [List.getElem_cons_succ]
        exact fun h => hx (h ▸ List.getElem_mem hk')
      simp only [indexOfVal, if_neg hne]
      rw [List.getElem_cons_succ, ih hxs k hk']
      rfl

theorem set_len_append {α : Type} :
    ∀ (l₁ l₂ : List α) (y : α), (l₁ ++ l₂).set l₁.length y = l₁ ++ l₂.set 0 y
  | [], _, _ => rfl
  | x :: xs, l₂, y => congrArg (x :: ·) (set_len_append xs l₂ y)

theorem set_append_of_length {α : Type} (l₁ l₂ : List α) (k : ℕ)
    (h : l₁.length = k) (y : α) : (l₁ ++ l₂).set k y = l₁ ++ l₂.set 0 y := by
  subst h
  exact set_len_append l₁ l₂ y

/-- Evaluation of one centered loop iteration: with distinct time
    coordinates, iteration `k` selects exactly index `k` of both inputs,
    runs `pattern_corr` there, and advances the per-slice centering frontier
    by one. -/
theorem corrStep_centered_eval (W : Grid) (tvals : List ℝ) (hnd : tvals.Nodup)
    (adata bdata : List Grid)
    (hla : adata.length = tvals.length) (hlb : bdata.length = tvals.length)
    (hsa : ∀ g ∈ adata, shape g = shape W)
    (hsb : adata.map shape = bdata.map shape)
    (k : ℕ) (hk : k < tvals.length)
    (vals : List ℝ) (A B : DataArray)
    (hta : A.timeDim = "time") (htb : B.timeDim = "time")
    (hca : alookup "time" A.coords = some tvals)
    (hcb : alookup "time" B.coords = some tvals)
    (hda : A.data = (adata.take k).map (fun g => gsubc g (nansum (gmul g W)))
      ++ adata.drop k)
    (hdb : B.data = (bdata.take k).map (fun g => gsubc g (nansum (gmul g W)))
      ++ bdata.drop k) :
    ∃ r : ℝ, corrStep W true tvals (vals, A, B) k =
      .ok (vals.set k r,
           { A with data := (adata.take (k + 1)).map (fun g => gsubc g (nansum (gmul g W))) ++ adata.drop (k + 1) },
           { B with data := (bdata.take (k + 1)).map (fun g => gsubc g (nansum (gmul g W))) ++ bdata.drop (k + 1) }) := by
  have hka : k < adata.length := by rw [hla]; exact hk
  have hkb : k < bdata.length := by rw [hlb]; exact hk
  have hv : tvals[k]? = some tvals[k] := List.getElem?_eq_getElem hk
  have hidx := indexOfVal_of_nodup tvals hnd k hk
  have hselA : selTimeIndex A tvals[k] = .ok k := by
    simp [selTimeIndex, hta, hca, hidx]
  have hselB : selTimeIndex B tvals[k] = .ok k := by
    simp [selTimeIndex, htb, hcb, hidx]
  have hlenA : ((adata.take k).map
      (fun g => gsubc g (nansum (gmul g W)))).length = k := by
    simp [List.length_take]
    omega
  have hlenB : ((bdata.take k).map
      (fun g => gsubc g (nansum (gmul g W)))).length = k := by
    simp [List.length_take]
    omega
  have hgetA : A.data[k]? = some adata[k] := by
    rw [hda, List.getElem?_append_right (le_of_eq hlenA), hlenA]
    simp [List.getElem?_drop, List.getElem?_eq_getElem hka]
  have hgetB : B.data[k]? = some bdata[k] := by
    rw [hdb, List.getElem?_append_right (le_of_eq hlenB), hlenB]
    simp [List.getElem?_drop, List.getElem?_eq_getElem hkb]
  have hshk : shape adata[k] = shape bdata[k] := by
    have h1 := congrArg (fun l => l[k]?) hsb
    simp only [List.getElem?_map] at h1
    rw [List.getElem?_eq_getElem hka, List.getElem?_eq_getElem hkb] at h1
    simpa using h1
  have hpc : pattern_corr adata[k] bdata[k] (some W) true =
      .ok ⟨specPatternCorr adata[k] bdata[k] (some W) true,
           gsubc adata[k] (nansum (gmul adata[k] W)),
           gsubc bdata[k] (nansum (gmul bdata[k] W))⟩ := by
    rw [pattern_corr_ok_parts adata[k] bdata[k] (some W) true hshk
      (by simpa using (hsa adata[k] (List.getElem_mem hka)).symm)]
    rfl
  have hsetA : A.data.set k (gsubc adata[k] (nansum (gmul adata[k] W))) =
      (adata.take (k + 1)).map (fun g => gsubc g (nansum (gmul g W)))
        ++ adata.drop (k + 1) := by
    rw [hda, set_append_of_length _ _ k hlenA,
      List.drop_eq_getElem_cons hka, List.set_cons_zero,
      List.take_succ, List.getElem?_eq_getElem hka]
    simp only [Option.toList_some, List.map_append, List.map_cons, List.map_nil,
      List.singleton_append, List.append_assoc]
  have hsetB : B.data.set k (gsubc bdata[k] (nansum (gmul bdata[k] W))) =
      (bdata.take (k + 1)).map (fun g => gsubc g (nansum (gmul g W)))
        ++ bdata.drop (k + 1) := by
    rw [hdb, set_append_of_length _ _ k hlenB,
      List.drop_eq_getElem_cons hkb, List.set_cons_zero,
      List.take_succ, List.getElem?_eq_getElem hkb]
    simp only [Option.toList_some, List.map_append, List.map_cons, List.map_nil,
      List.singleton_append, List.append_assoc]
  refine ⟨specPatternCorr adata[k] bdata[k] (some W) true, ?_⟩
  simp only [corrStep, hv, hselA, hgetA, hselB, hgetB, hpc]
  rw [hsetA, hsetB]

/-- Evaluation of the whole centered loop from frontier `k` with `m`
    iterations remaining: it succeeds and leaves every slice of both inputs
    centered by its own weighted mean. -/
theorem corrLoop_centered_eval (W : Grid) (tvals : List ℝ) (hnd : tvals.Nodup)
    (adata bdata : List Grid)
    (hla : adata.length = tvals.length) (hlb : bdata.length = tvals.length)
    (hsa : ∀ g ∈ adata, shape g = shape W)
    (hsb : adata.map shape = bdata.map shape) :
    ∀ (m k : ℕ), k + m = tvals.length →
    ∀ (vals : List ℝ) (A B : DataArray),
      A.timeDim = "time" → B.timeDim = "time" →
      alookup "time" A.coords = some tvals →
      alookup "time" B.coords = some tvals →
      A.data = (adata.take k).map (fun g => gsubc g (nansum (gmul g W)))
        ++ adata.drop k →
      B.data = (bdata.take k).map (fun g => gsubc g (nansum (gmul g W)))
        ++ bdata.drop k →
      ∃ vals' : List ℝ,
        corrLoop W true tvals (List.range' k m) (vals, A, B) =
          .ok (vals',
            { A with data := adata.map (fun g => gsubc g (nansum (gmul g W))) },
            { B with data := bdata.map (fun g => gsubc g (nansum (gmul g W))) }) := by
  intro m
  induction m with
  | zero =>
    intro k hk vals A B hta htb hca hcb hda hdb
    refine ⟨vals, ?_⟩
    have hAdata : A.data = adata.map (fun g => gsubc g (nansum (gmul g W))) := by
      rw [hda, List.take_of_length_le (by omega), List.drop_eq_nil_of_le (by omega)]
      simp
    have hBdata : B.data = bdata.map (fun g => gsubc g (nansum (gmul g W))) := by
      rw [hdb, List.take_of_length_le (by omega), List.drop_eq_nil_of_le (by omega)]
      simp
    have heta : ∀ (D : DataArray) (X : List Grid), D.data = X →
        ({ D with data := X } : DataArray) = D := by
      intro D X h
      cases D
      simpa using h.symm
    show corrLoop W true tvals [] (vals, A, B) = _
    simp only [corrLoop]
    rw [heta A _ hAdata, heta B _ hBdata]
  | succ m ih =>
    intro k hk vals A B hta htb hca hcb hda hdb
    have hk' : k < tvals.length := by omega
    obtain ⟨r, hstep⟩ := corrStep_centered_eval W tvals hnd adata bdata hla hlb
      hsa hsb k hk' vals A B hta htb hca hcb hda hdb
    obtain ⟨vals', hrec⟩ := ih (k + 1) (by omega) (vals.set k r)
      { A with data := (adata.take (k + 1)).map (fun g => gsubc g (nansum (gmul g W))) ++ adata.drop (k + 1) }
      { B with data := (bdata.take (k + 1)).map (fun g => gsubc g (nansum (gmul g W))) ++ bdata.drop (k + 1) }
      hta htb hca hcb rfl rfl
    refine ⟨vals', ?_⟩
    show corrLoop W true tvals (k :: List.range' (k + 1) m) (vals, A, B) = _
    simp only [corrLoop, hstep]
    exact hrec

/-- C10: with `centered = true` (and the default labels), a successful
    `xarray_pattern_corr` run leaves every spatial slice of both caller
    arrays equal to its original values minus that slice's weighted mean
    `nansum(slice * weights)`: the per-step `pattern_corr` calls write
    through the views selected by time-coordinate value, so the inputs do
    not survive the call unchanged. -/
theorem xarray_pattern_corr_centered_mutates
    (ds_a ds_b : DataArray) (lats lons tvals : List ℝ) (W : Grid)
    (hsh : dshape ds_a = dshape ds_b)
    (hta : ds_a.timeDim = "time") (htb : ds_b.timeDim = "time")
    (hlat : alookup "lat" ds_a.coords = some lats)
    (hlon : alookup "lon" ds_a.coords = some lons)
    (htva : alookup "time" ds_a.coords = some tvals)
    (htvb : alookup "time" ds_b.coords = some tvals)
    (hnd : tvals.Nodup)
    (hla : ds_a.data.length = tvals.length)
    (hlb : ds_b.data.length = tvals.length)
    (hW : spatial_weights (lats.map some) (lons.length : ℤ) = .ok W)
    (hsa : ∀ g ∈ ds_a.data, shape g = shape W) :
    (xarray_pattern_corr ds_a ds_b true "lat" "lon" "time").map
        (fun r => (r.2.1, r.2.2)) =
      .ok ({ ds_a with data := ds_a.data.map (fun g => gsubc g (nansum (gmul g W))) },
           { ds_b with data := ds_b.data.map (fun g => gsubc g (nansum (gmul g W))) }) := by
  obtain ⟨vals', hloop⟩ := corrLoop_centered_eval W tvals hnd ds_a.data ds_b.data
    hla hlb hsa hsh tvals.length 0 (by omega) (List.replicate tvals.length 0)
    ds_a ds_b hta htb htva htvb (by simp) (by simp)
  have hca : coordOrErr ds_a.coords "lat" = .ok lats := by
    simp [coordOrErr, hlat]
  have hco : coordOrErr ds_a.coords "lon" = .ok lons := by
    simp [coordOrErr, hlon]
  have hct : coordOrErr ds_a.coords "time" = .ok tvals := by
    simp [coordOrErr, htva]
  have hct2 : coordOrErr [("time", tvals)] "time" = .ok tvals := by
    simp [coordOrErr, alookup]
  simp only [xarray_pattern_corr, if_pos hsh, hca, hco, hW, hct, hct2,
    List.range_eq_range', hloop]
  rfl

theorem xarray_pattern_corr_centered_mutates_witness :
    (([(0:ℝ)].Nodup ∧
      spatial_weights (List.map some [(0:ℝ)]) (([(0:ℝ)].length : ℤ)) =
        .ok [[odivc (ocos (some 0)) (nansum [[ocos (some 0)]])]]) ∧
     (xarray_pattern_corr
        ⟨"time", [("time", [0]), ("lat", [0]), ("lon", [0])], [[[some 1]]], []⟩
        ⟨"time", [("time", [0]), ("lat", [0]), ("lon", [0])], [[[some 2]]], []⟩
        true "lat" "lon" "time").map (fun r => (r.2.1, r.2.2)) =
      .ok ({ (⟨"time", [("time", [0]), ("lat", [0]), ("lon", [0])], [[[some 1]]], []⟩ : DataArray) with data := [[[some (1:ℝ)]]].map (fun g => gsubc g (nansum (gmul g [[odivc (ocos (some 0)) (nansum [[ocos (some 0)]])]]))) },
           { (⟨"time", [("time", [0]), ("lat", [0]), ("lon", [0])], [[[some 2]]], []⟩ : DataArray) with data := [[[some (2:ℝ)]]].map (fun g => gsubc g (nansum (gmul g [[odivc (ocos (some 0)) (nansum [[ocos (some 0)]])]]))) })) :=
  ⟨⟨by simp, rfl⟩,
   xarray_pattern_corr_centered_mutates
     ⟨"time", [("time", [0]), ("lat", [0]), ("lon", [0])], [[[some 1]]], []⟩
     ⟨"time", [("time", [0]), ("lat", [0]), ("lon", [0])], [[[some 2]]], []⟩
     [0] [0] [0] [[odivc (ocos (some 0)) (nansum [[ocos (some 0)]])]]
     rfl rfl rfl rfl rfl rfl rfl (by simp) rfl rfl rfl
     (by
       intro g hg
       simp only [List.mem_singleton] at hg
       subst hg
       rfl)⟩

end PatternCorrelation
